import Mathlib

/-!
Shallow embedding of `src/index.js` of the tvnotify bot.

The bot polls the TVDB metadata provider, resolves the latest complete
episode of each tracked series, notifies a chat channel, and tallies
per-user per-episode reactions.  The embedding models:

* provider calls as explicit oracle arguments of type `Except Unit _`
  (an `Except.error` stands for a thrown transport/parse failure, an
  `Except.ok none` for a JSON response whose `data` field is missing);
* the MongoDB collections as plain Lean lists (`seriesCollection` as a
  list of series ids, `reactionsCollection` as a list of
  `ReactionRecord`s), with `findOne` / `updateOne` / `insertOne` /
  `deleteOne` acting on the first matching element as MongoDB does;
* the process-local watermark entry for one series as an `Option String`.
-/

namespace TvNotify

/-- A raw provider episode record, as consumed by `index.js`.
`episodeName`, `overview` and `filename` are `Option String` because the
provider may omit them (placeholder / TBA entries); `none` models an
absent or null JSON field. -/
structure Episode where
  id : String
  episodeName : Option String
  overview : Option String
  filename : Option String
  airedSeason : Nat
  airedEpisodeNumber : Nat
deriving DecidableEq, Repr

/-- JavaScript truthiness of an optional string field: an absent (or
null) field and the empty string are falsy, every other string is
truthy.  This is the test `ep.episodeName && ep.overview && ep.filename`
performs on each field. -/
def jsTruthy : Option String → Bool
  | none => false
  | some s => s ≠ ""

/-- The filter predicate of `fetchValidEpisodes`
(`(ep) => ep.episodeName && ep.overview && ep.filename`). -/
def isEligible (ep : Episode) : Bool :=
  jsTruthy ep.episodeName && jsTruthy ep.overview && jsTruthy ep.filename

/-- The season-episodes oracle: for a season number, the outcome of the
`GET /series/{seriesId}/episodes/query?airedSeason={season}` call.
`Except.error` models a thrown fetch/parse failure, `Except.ok none` a
response with no `data` array, `Except.ok (some l)` a response whose
`data` array is `l`. -/
def SeasonFetch : Type := Nat → Except Unit (Option (List Episode))

/-- Embedding of `fetchValidEpisodes` (src/index.js lines 33-47): fetch
the season's episode list; a missing or empty `data` array yields `[]`;
otherwise filter to the non-TBA episodes, preserving provider order.  A
thrown fetch failure propagates as `Except.error`. -/
def fetchValidEpisodes (sf : SeasonFetch) (season : Nat) :
    Except Unit (List Episode) :=
  match sf season with
  | .error e => .error e
  | .ok none => .ok []
  | .ok (some l) => if l.isEmpty then .ok [] else .ok (l.filter isEligible)

/-- The eligible-episode list a season yields when its fetch succeeds
(meaningful only under a hypothesis that the fetch does not throw). -/
def eligList (sf : SeasonFetch) (season : Nat) : List Episode :=
  match fetchValidEpisodes sf season with
  | .ok l => l
  | .error _ => []

/-- Embedding of the `while (data.data.airedSeasons.length > 0)` loop of
`fetchLatestEpisode` (src/index.js lines 65-71).  The source pops the
last element of the ascending `airedSeasons` array on each iteration, so
the loop visits the seasons in reversed order; the embedding therefore
recurses over the already-reversed list, head first.  A thrown failure
inside `fetchValidEpisodes` escapes the loop into the surrounding
`catch`, which returns `null`: here it returns `none` directly. -/
def seasonWalk (sf : SeasonFetch) : List Nat → Option Episode
  | [] => none
  | s :: rest =>
    match fetchValidEpisodes sf s with
    | .error _ => none
    | .ok valid => if valid.isEmpty then seasonWalk sf rest else valid.getLast?

/-- Instrumented variant of `seasonWalk` that also returns the list of
seasons whose episode list was actually fetched, in fetch order. -/
def seasonWalkTr (sf : SeasonFetch) : List Nat → Option Episode × List Nat
  | [] => (none, [])
  | s :: rest =>
    match fetchValidEpisodes sf s with
    | .error _ => (none, [s])
    | .ok valid =>
      if valid.isEmpty then
        let r := seasonWalkTr sf rest
        (r.1, s :: r.2)
      else (valid.getLast?, [s])

/-- The summary oracle: outcome of `GET /series/{seriesId}/episodes/summary`.
`Except.error` models a thrown fetch/parse failure; `Except.ok none` a
response with `data` or `data.airedSeasons` missing; `Except.ok (some l)`
a response whose `airedSeasons` array is `l` (ascending in practice). -/
def SummaryFetch : Type := Except Unit (Option (List Nat))

/-- Embedding of `fetchLatestEpisode` (src/index.js lines 50-78): on a
thrown failure anywhere in the `try` block (summary fetch or any season
fetch) the `catch` returns `null`; a missing or empty `airedSeasons`
returns `null`; otherwise the seasons are walked newest-first and the
last valid episode of the first season with any is returned. -/
def fetchLatestEpisode (summary : SummaryFetch) (sf : SeasonFetch) :
    Option Episode :=
  match summary with
  | .error _ => none
  | .ok none => none
  | .ok (some seasons) =>
    if seasons.isEmpty then none else seasonWalk sf seasons.reverse

/-- The seasons whose episode list `fetchLatestEpisode` fetches, in
fetch order (empty when the summary itself fails or is empty). -/
def fetchLatestTrace (summary : SummaryFetch) (sf : SeasonFetch) : List Nat :=
  match summary with
  | .error _ => []
  | .ok none => []
  | .ok (some seasons) =>
    if seasons.isEmpty then [] else (seasonWalkTr sf seasons.reverse).2

/-- Holds (as `true`) when walking the given (already reversed) season
list raises a transport/parse failure before an eligible episode is
found: the condition under which the JS exception reaches the `catch`
from inside the loop. -/
def walkHitsFailure (sf : SeasonFetch) : List Nat → Bool
  | [] => false
  | s :: rest =>
    match fetchValidEpisodes sf s with
    | .error _ => true
    | .ok valid => if valid.isEmpty then walkHitsFailure sf rest else false

/-- Embedding of `checkForNewEpisode` (src/index.js lines 154-160) for a
single series.  Arguments: the resolver's result, whether the awaited
`sendLatestEpisodeNotification` call succeeds (`false` models a thrown
dispatch failure, which aborts the async function before the watermark
assignment), and the current watermark entry
`lastNotifiedEpisodes[seriesId]` (`none` when absent).  Returns the
watermark entry after the call and whether a dispatch was attempted. -/
def checkForNewEpisode (latest : Option Episode) (dispatchOk : Bool)
    (wm : Option String) : Option String × Bool :=
  match latest with
  | none => (wm, false)
  | some ep =>
    if some ep.id = wm then (wm, false)
    else if dispatchOk then (some ep.id, true) else (wm, true)

/-- The three reaction values admitted by the callback pattern
`/(like|love|angry)_(.+)/`. -/
inductive Reaction where
  | like
  | love
  | angry
deriving DecidableEq, Repr

/-- The reaction name as it appears in callback data and toasts. -/
def Reaction.text : Reaction → String
  | .like => "like"
  | .love => "love"
  | .angry => "angry"

/-- A document of the `reactions` collection:
`{ episodeId, userId, reaction }`. -/
structure ReactionRecord where
  episodeId : String
  userId : Nat
  reaction : Reaction
deriving DecidableEq, Repr

/-- The key test of `findOne({ episodeId, userId })` /
`updateOne({ episodeId, userId }, ...)`. -/
def keyMatch (e : String) (u : Nat) (r : ReactionRecord) : Bool :=
  r.episodeId == e && r.userId == u

/-- MongoDB `updateOne({ episodeId, userId }, { $set: { reaction } })`:
overwrite the reaction value of the first matching document in place;
no document is added or removed. -/
def updateOneReaction (e : String) (u : Nat) (rc : Reaction) :
    List ReactionRecord → List ReactionRecord
  | [] => []
  | r :: rest =>
    if keyMatch e u r then { r with reaction := rc } :: rest
    else r :: updateOneReaction e u rc rest

/-- Embedding of the store mutation of the reaction handler
`bot.action(/(like|love|angry)_(.+)/)` (src/index.js lines 267-280):
look up the pair's existing record; overwrite it when the incoming
reaction differs, return early when it is the same, insert a fresh
record when none exists. -/
def applyReaction (store : List ReactionRecord) (e : String) (u : Nat)
    (rc : Reaction) : List ReactionRecord :=
  match store.find? (keyMatch e u) with
  | some ex =>
    if ex.reaction ≠ rc then updateOneReaction e u rc store else store
  | none => store ++ [⟨e, u, rc⟩]

/-- Embedding of the whole reaction handler, store mutation plus
user-visible acknowledgement: the second component is the
`answerCbQuery` toast text, or `none` when the handler returned without
answering (the same-reaction early `return` at src/index.js line 276
skips the `ctx.answerCbQuery` call at line 300). -/
def reactionHandler (store : List ReactionRecord) (e : String) (u : Nat)
    (rc : Reaction) : List ReactionRecord × Option String :=
  match store.find? (keyMatch e u) with
  | some ex =>
    if ex.reaction ≠ rc then
      (updateOneReaction e u rc store, some ("You reacted with " ++ rc.text))
    else (store, none)
  | none => (store ++ [⟨e, u, rc⟩], some ("You reacted with " ++ rc.text))

/-- The rendered tally of `getReactions` (src/index.js lines 103-120):
group the episode's reaction records by reaction value and count, each
of the three categories defaulting to zero. -/
structure Tally where
  like : Nat
  love : Nat
  angry : Nat
deriving DecidableEq, Repr

/-- Embedding of `getReactions`: the aggregate
`$match { episodeId } / $group by reaction with $sum 1`, poured into the
`{ like: 0, love: 0, angry: 0 }` default object. -/
def getReactions (store : List ReactionRecord) (e : String) : Tally :=
  { like := store.countP fun r => r.episodeId == e && r.reaction == .like
    love := store.countP fun r => r.episodeId == e && r.reaction == .love
    angry := store.countP fun r => r.episodeId == e && r.reaction == .angry }

/-- The number of reaction records stored for an episode. -/
def episodeRecordCount (store : List ReactionRecord) (e : String) : Nat :=
  store.countP fun r => r.episodeId == e

/-- At most one reaction record per (episodeId, userId) pair: the
uniqueness invariant of the `reactions` collection. -/
def KeyUnique (store : List ReactionRecord) : Prop :=
  store.Pairwise fun a b => ¬(a.episodeId = b.episodeId ∧ a.userId = b.userId)

/-- Embedding of the `add_series` command handler (src/index.js lines
173-181).  The argument is `ctx.message.text.split(' ')[1]`: `none` when
the command has no argument.  The handler inserts only when the id is
truthy and `findOne({ seriesId })` finds nothing; both the
invalid-id case and the already-added case fall into the single `else`
branch with one shared reply string. -/
def addSeries (store : List String) (arg : Option String) :
    List String × String :=
  match arg with
  | some sid =>
    if sid ≠ "" ∧ sid ∉ store then
      (store ++ [sid], "Series with ID " ++ sid ++ " added.")
    else (store, "Please provide a valid series ID or the series is already added.")
  | none => (store, "Please provide a valid series ID or the series is already added.")

/-- MongoDB `deleteOne({ seriesId })`: remove the first matching
document, if any. -/
def deleteOneSeries (sid : String) : List String → List String
  | [] => []
  | s :: rest => if s == sid then rest else s :: deleteOneSeries sid rest

/-- Embedding of the `remove_(.+)` action handler (src/index.js lines
225-236): unconditionally `deleteOne` the id and edit the message to the
fixed removal confirmation — there is no tracked-membership check and no
distinct reply for an untracked id. -/
def removeSeries (store : List String) (sid : String) :
    List String × String :=
  (deleteOneSeries sid store, "Series with ID " ++ sid ++ " removed.")

/-! ## Resolver lemmas -/

lemma eligList_of_ok {sf : SeasonFetch} {s : Nat} {el : List Episode}
    (h : fetchValidEpisodes sf s = .ok el) : eligList sf s = el := by
  simp [eligList, h]

lemma seasonWalk_eq_find (sf : SeasonFetch) (l : List Nat)
    (hok : ∀ s ∈ l, ∃ el, fetchValidEpisodes sf s = .ok el) :
    seasonWalk sf l =
      (l.find? fun s => !(eligList sf s).isEmpty).bind
        fun s => (eligList sf s).getLast? := by
  induction l with
  | nil => rfl
  | cons s rest ih =>
    obtain ⟨el, hel⟩ := hok s (by simp)
    have helig : eligList sf s = el := eligList_of_ok hel
    by_cases hemp : el.isEmpty
    · rw [List.find?_cons_of_neg _ (by simp [helig, hemp])]
      rw [show seasonWalk sf (s :: rest) = seasonWalk sf rest by
        simp [seasonWalk, hel, hemp]]
      exact ih fun t ht => hok t (List.mem_cons_of_mem _ ht)
    · rw [List.find?_cons_of_pos _ (by simp [helig, hemp])]
      simp [seasonWalk, hel, hemp, helig]

lemma seasonWalkTr_fst (sf : SeasonFetch) (l : List Nat) :
    (seasonWalkTr sf l).1 = seasonWalk sf l := by
  induction l with
  | nil => rfl
  | cons s rest ih =>
    simp only [seasonWalkTr, seasonWalk]
    cases fetchValidEpisodes sf s with
    | error e => rfl
    | ok valid =>
      by_cases hemp : valid.isEmpty <;> simp [hemp, ih]

lemma seasonWalkTr_trace (sf : SeasonFetch) (l : List Nat)
    (hok : ∀ s ∈ l, ∃ el, fetchValidEpisodes sf s = .ok el) :
    (seasonWalkTr sf l).2 =
      match l.find? fun s => !(eligList sf s).isEmpty with
      | some s => (l.takeWhile fun t => (eligList sf t).isEmpty) ++ [s]
      | none => l := by
  induction l with
  | nil => rfl
  | cons s rest ih =>
    obtain ⟨el, hel⟩ := hok s (by simp)
    have helig : eligList sf s = el := eligList_of_ok hel
    by_cases hemp : el.isEmpty
    · rw [List.find?_cons_of_neg _ (by simp [helig, hemp])]
      rw [List.takeWhile_cons_of_pos (by simp [helig, hemp])]
      have htr : (seasonWalkTr sf (s :: rest)).2 = s :: (seasonWalkTr sf rest).2 := by
        simp [seasonWalkTr, hel, hemp]
      rw [htr, ih fun t ht => hok t (List.mem_cons_of_mem _ ht)]
      cases rest.find? fun t => !(eligList sf t).isEmpty <;> simp
    · rw [List.find?_cons_of_pos _ (by simp [helig, hemp])]
      rw [List.takeWhile_cons_of_neg (by simp [helig, hemp])]
      simp [seasonWalkTr, hel, hemp]

lemma seasonWalkTr_trace_sublist (sf : SeasonFetch) (l : List Nat) :
    List.Sublist (seasonWalkTr sf l).2 l := by
  induction l with
  | nil => simp [seasonWalkTr]
  | cons s rest ih =>
    simp only [seasonWalkTr]
    cases fetchValidEpisodes sf s with
    | error e => simp
    | ok valid =>
      by_cases hemp : valid.isEmpty
      · simpa [hemp] using List.Sublist.cons₂ s ih
      · simp [hemp]

lemma seasonWalk_of_failure (sf : SeasonFetch) (l : List Nat)
    (h : walkHitsFailure sf l = true) : seasonWalk sf l = none := by
  induction l with
  | nil => simp [walkHitsFailure] at h
  | cons s rest ih =>
    simp only [walkHitsFailure] at h
    simp only [seasonWalk]
    cases hfv : fetchValidEpisodes sf s with
    | error e => rfl
    | ok valid =>
      rw [hfv] at h
      by_cases hemp : valid.isEmpty
      · simp only [hemp, if_true]
        exact ih (by simpa [hemp] using h)
      · simp [hemp] at h

/-! ## Concrete fixtures (provider data used by the witnesses) -/

/-- A placeholder episode: its synopsis is missing, so it is ineligible. -/
def epPlaceholder : Episode := ⟨"P", some "tba", none, some "p.jpg", 2, 1⟩

/-- An eligible episode of season 1. -/
def epA : Episode := ⟨"A", some "one", some "first", some "a.jpg", 1, 1⟩

/-- Another eligible episode of season 1, later in provider order. -/
def epB : Episode := ⟨"B", some "two", some "second", some "b.jpg", 1, 2⟩

/-- A season oracle: season 2 has only the placeholder, season 1 has two
eligible episodes, every other season has no data. -/
def sfW : SeasonFetch := fun s =>
  if s = 2 then .ok (some [epPlaceholder])
  else if s = 1 then .ok (some [epA, epB])
  else .ok none

/-- A season oracle whose season-2 fetch throws. -/
def sfFail : SeasonFetch := fun s =>
  if s = 2 then .error () else .ok (some [epA, epB])

/-! ## Claim theorems: the latest-episode resolver -/

/-- Claim C1: for every series whose summary yields an ordered ascending
list of aired season numbers (and whose season fetches do not throw, the
failure-free case the claim describes), `fetchLatestEpisode` examines
seasons from the most recent backward: the result is the last element of
the order-preserving eligibility filter of the first season, in reversed
order, whose filtered list is non-empty, and `none` when no season has
an eligible episode; the trace of fetched seasons is exactly the walked
seasons up to and including that first season, so no earlier season is
consulted. -/
theorem C1_resolver_newest_first_last_eligible
    (summary : SummaryFetch) (sf : SeasonFetch) (seasons : List Nat)
    (hsum : summary = .ok (some seasons))
    (_hasc : List.Sorted (· < ·) seasons)
    (hok : ∀ s ∈ seasons, ∃ el, fetchValidEpisodes sf s = .ok el) :
    fetchLatestEpisode summary sf =
      ((seasons.reverse.find? fun s => !(eligList sf s).isEmpty).bind
        fun s => (eligList sf s).getLast?)
    ∧ fetchLatestTrace summary sf =
        (match seasons.reverse.find? fun s => !(eligList sf s).isEmpty with
         | some s =>
             (seasons.reverse.takeWhile fun t => (eligList sf t).isEmpty) ++ [s]
         | none => seasons.reverse) := by
  subst hsum
  have hokr : ∀ s ∈ seasons.reverse, ∃ el, fetchValidEpisodes sf s = .ok el :=
    fun s hs => hok s (List.mem_reverse.mp hs)
  by_cases hemp : seasons.isEmpty
  · have : seasons = [] := List.isEmpty_iff.mp hemp
    subst this
    exact ⟨rfl, rfl⟩
  · constructor
    · simpa [fetchLatestEpisode, hemp] using seasonWalk_eq_find sf seasons.reverse hokr
    · simpa [fetchLatestTrace, hemp] using seasonWalkTr_trace sf seasons.reverse hokr

/-- Witness for C1: seasons `[1, 2]`, season 2 holding only a placeholder
and season 1 two eligible episodes: the resolver skips season 2, returns
the last eligible episode of season 1, and fetches exactly seasons 2
then 1. -/
theorem C1_resolver_witness :
    fetchLatestEpisode (Except.ok (some [1, 2])) sfW = some epB ∧
    fetchLatestTrace (Except.ok (some [1, 2])) sfW = [2, 1] := by
  have h := C1_resolver_newest_first_last_eligible
    (Except.ok (some [1, 2])) sfW [1, 2] rfl (by decide)
    (by intro s hs
        fin_cases hs
        · exact ⟨[epA, epB], rfl⟩
        · exact ⟨[], rfl⟩)
  refine ⟨h.1.trans ?_, h.2.trans ?_⟩ <;> rfl

/-- Claim C6: a transport/parse failure thrown during the summary fetch,
or during the episode fetch of any season the walk reaches, makes
`fetchLatestEpisode` return `none` instead of propagating the fault; and
nothing is retried within the call: the summary is fetched once by
construction and, for a duplicate-free `airedSeasons` list, the trace of
season fetches is duplicate-free, so each season's episode list is
fetched at most once. -/
theorem C6_gateway_failure_is_not_found
    (summary : SummaryFetch) (sf : SeasonFetch) :
    (summary = .error () → fetchLatestEpisode summary sf = none)
    ∧ (∀ seasons, summary = .ok (some seasons) →
        walkHitsFailure sf seasons.reverse = true →
        fetchLatestEpisode summary sf = none)
    ∧ (∀ seasons, summary = .ok (some seasons) → seasons.Nodup →
        (fetchLatestTrace summary sf).Nodup) := by
  refine ⟨fun h => by simp [fetchLatestEpisode, h], ?_, ?_⟩
  · intro seasons hsum hfail
    subst hsum
    by_cases hemp : seasons.isEmpty
    · simp [fetchLatestEpisode, hemp]
    · simpa [fetchLatestEpisode, hemp] using
        seasonWalk_of_failure sf seasons.reverse hfail
  · intro seasons hsum hnd
    subst hsum
    by_cases hemp : seasons.isEmpty
    · simp [fetchLatestTrace, hemp]
    · have hsub := seasonWalkTr_trace_sublist sf seasons.reverse
      simpa [fetchLatestTrace, hemp] using
        hsub.nodup (by simpa using hnd)

/-- Witness for C6: a thrown summary fetch yields `none`; a thrown
season-2 fetch yields `none` even though season 1 has eligible episodes;
and on the failure-free oracle the fetched-season trace `[2, 1]` has no
duplicates. -/
theorem C6_gateway_failure_witness :
    fetchLatestEpisode (Except.error ()) sfW = none ∧
    fetchLatestEpisode (Except.ok (some [1, 2])) sfFail = none ∧
    (fetchLatestTrace (Except.ok (some [1, 2])) sfW).Nodup := by
  refine ⟨(C6_gateway_failure_is_not_found (Except.error ()) sfW).1 rfl,
    (C6_gateway_failure_is_not_found (Except.ok (some [1, 2])) sfFail).2.1
      [1, 2] rfl (by rfl),
    (C6_gateway_failure_is_not_found (Except.ok (some [1, 2])) sfW).2.2
      [1, 2] rfl (by decide)⟩

/-- Claim C10: the season walk terminates after at most one iteration per
aired season: the trace of fetched seasons is a sublist of the reversed
`airedSeasons` list, its length is at most the number of aired seasons,
and when the aired-season list is duplicate-free each season's episode
list is fetched at most once. -/
theorem C10_walk_bounded (sf : SeasonFetch) (seasons : List Nat) :
    List.Sublist (seasonWalkTr sf seasons.reverse).2 seasons.reverse
    ∧ (seasonWalkTr sf seasons.reverse).2.length ≤ seasons.length
    ∧ (seasons.Nodup → (seasonWalkTr sf seasons.reverse).2.Nodup) := by
  have hsub := seasonWalkTr_trace_sublist sf seasons.reverse
  exact ⟨hsub, by simpa using hsub.length_le,
    fun hnd => hsub.nodup (by simpa using hnd)⟩

/-- Witness for C10 at seasons `[1, 2]` and the fixture oracle: the walk
fetches at most two seasons and fetches no season twice. -/
theorem C10_walk_bounded_witness :
    (seasonWalkTr sfW [1, 2].reverse).2.length ≤ 2 ∧
    (seasonWalkTr sfW [1, 2].reverse).2.Nodup :=
  ⟨(C10_walk_bounded sfW [1, 2]).2.1,
   (C10_walk_bounded sfW [1, 2]).2.2 (by decide)⟩

/-! ## Reaction-store lemmas -/

/-- The (episodeId, userId) key of a reaction record. -/
def keyOf (r : ReactionRecord) : String × Nat := (r.episodeId, r.userId)

lemma keyMatch_iff {e : String} {u : Nat} {r : ReactionRecord} :
    keyMatch e u r = true ↔ r.episodeId = e ∧ r.userId = u := by
  simp [keyMatch]

lemma updateOne_map_keyOf (e : String) (u : Nat) (rc : Reaction)
    (store : List ReactionRecord) :
    (updateOneReaction e u rc store).map keyOf = store.map keyOf := by
  induction store with
  | nil => rfl
  | cons r rest ih =>
    by_cases h : keyMatch e u r <;> simp [updateOneReaction, h, keyOf, ih]

lemma updateOne_length (e : String) (u : Nat) (rc : Reaction)
    (store : List ReactionRecord) :
    (updateOneReaction e u rc store).length = store.length := by
  simpa using congrArg List.length (updateOne_map_keyOf e u rc store)

lemma keyUnique_updateOne (e : String) (u : Nat) (rc : Reaction)
    {store : List ReactionRecord} (h : KeyUnique store) :
    KeyUnique (updateOneReaction e u rc store) := by
  have h2 : ((updateOneReaction e u rc store).map keyOf).Pairwise
      (fun p q => ¬(p.1 = q.1 ∧ p.2 = q.2)) := by
    rw [updateOne_map_keyOf]
    exact List.pairwise_map.mpr h
  exact List.pairwise_map.mp h2

lemma keyUnique_append_new (e : String) (u : Nat) (rc : Reaction)
    {store : List ReactionRecord} (h : KeyUnique store)
    (hnone : store.find? (keyMatch e u) = none) :
    KeyUnique (store ++ [⟨e, u, rc⟩]) := by
  rw [KeyUnique, List.pairwise_append]
  refine ⟨h, List.pairwise_singleton _ _, ?_⟩
  intro a ha b hb
  have hb' : b = ⟨e, u, rc⟩ := by simpa using hb
  subst hb'
  have := List.find?_eq_none.mp hnone a ha
  simpa [keyMatch] using this

lemma applyReaction_keyUnique (store : List ReactionRecord) (e : String)
    (u : Nat) (rc : Reaction) (h : KeyUnique store) :
    KeyUnique (applyReaction store e u rc) := by
  unfold applyReaction
  cases hf : store.find? (keyMatch e u) with
  | none => exact keyUnique_append_new e u rc h hf
  | some ex =>
    by_cases hr : ex.reaction = rc
    · simp only [hr, ne_eq, not_true_eq_false, if_false]
      exact h
    · simp only [ne_eq, hr, not_false_eq_true, if_true]
      exact keyUnique_updateOne e u rc h

lemma find?_updateOne {store : List ReactionRecord} {e : String} {u : Nat}
    {ex : ReactionRecord} (rc : Reaction)
    (h : store.find? (keyMatch e u) = some ex) :
    (updateOneReaction e u rc store).find? (keyMatch e u) =
      some { ex with reaction := rc } := by
  induction store with
  | nil => simp at h
  | cons r rest ih =>
    by_cases hk : keyMatch e u r
    · rw [List.find?_cons_of_pos _ hk] at h
      have hex : r = ex := by injection h
      subst hex
      simp only [updateOneReaction, hk, if_true]
      exact List.find?_cons_of_pos _ hk
    · rw [List.find?_cons_of_neg _ hk] at h
      have hred : updateOneReaction e u rc (r :: rest)
          = r :: updateOneReaction e u rc rest := by
        simp [updateOneReaction, hk]
      rw [hred, List.find?_cons_of_neg _ hk]
      exact ih h

lemma find?_applyReaction (store : List ReactionRecord) (e : String)
    (u : Nat) (rc : Reaction) :
    (applyReaction store e u rc).find? (keyMatch e u) =
      some (match store.find? (keyMatch e u) with
            | some ex => { ex with reaction := rc }
            | none => ⟨e, u, rc⟩) := by
  unfold applyReaction
  cases hf : store.find? (keyMatch e u) with
  | none =>
    simp only [List.find?_append, hf, Option.none_or]
    simp [List.find?, keyMatch]
  | some ex =>
    by_cases hr : ex.reaction = rc
    · simp only [hr, ne_eq, not_true_eq_false, if_false]
      rw [hf]
      cases ex
      simp_all
    · simp only [ne_eq, hr, not_false_eq_true, if_true]
      exact find?_updateOne rc hf

lemma applyReaction_noop {store : List ReactionRecord} {e : String}
    {u : Nat} {rc : Reaction} {v : ReactionRecord}
    (h : store.find? (keyMatch e u) = some v) (hv : v.reaction = rc) :
    applyReaction store e u rc = store := by
  unfold applyReaction
  rw [h]
  simp [hv]

lemma find?_of_mem_keyUnique {store : List ReactionRecord}
    {ex : ReactionRecord} {e : String} {u : Nat}
    (hU : KeyUnique store) (hm : ex ∈ store)
    (he : ex.episodeId = e) (hu : ex.userId = u) :
    store.find? (keyMatch e u) = some ex := by
  induction store with
  | nil => simp at hm
  | cons r rest ih =>
    rcases List.mem_cons.mp hm with h | h
    · subst h
      exact List.find?_cons_of_pos _ (by simp [keyMatch, he, hu])
    · by_cases hk : keyMatch e u r
      · exfalso
        have hR := (List.pairwise_cons.mp hU).1 ex h
        have hkey : r.episodeId = e ∧ r.userId = u := keyMatch_iff.mp hk
        exact hR ⟨hkey.1.trans he.symm, hkey.2.trans hu.symm⟩
      · rw [List.find?_cons_of_neg _ hk]
        exact ih (List.pairwise_cons.mp hU).2 h

lemma countP_updateOne {store : List ReactionRecord} {e : String} {u : Nat}
    {ex : ReactionRecord} (rc : Reaction) (p : ReactionRecord → Bool)
    (h : store.find? (keyMatch e u) = some ex) :
    (updateOneReaction e u rc store).countP p + (if p ex then 1 else 0)
      = store.countP p + (if p { ex with reaction := rc } then 1 else 0) := by
  induction store with
  | nil => simp at h
  | cons r rest ih =>
    by_cases hk : keyMatch e u r
    · rw [List.find?_cons_of_pos _ hk] at h
      have hex : r = ex := by injection h
      subst hex
      simp only [updateOneReaction, hk, if_true, List.countP_cons]
      omega
    · rw [List.find?_cons_of_neg _ hk] at h
      have hred : updateOneReaction e u rc (r :: rest)
          = r :: updateOneReaction e u rc rest := by
        simp [updateOneReaction, hk]
      rw [hred]
      simp only [List.countP_cons]
      have := ih h
      omega

/-! ## Claim theorems: the reaction tally engine -/

/-- Claim C3: from any store satisfying the at-most-one-record-per-pair
invariant, any sequence of reaction-handler store mutations preserves
the invariant; moreover a record is inserted (appended) exactly when no
record exists for the pair, and when one exists the mutation only
overwrites a record in place: the stored (episodeId, userId) keys and
the record count are unchanged. -/
theorem C3_reaction_store_key_unique
    (store : List ReactionRecord) (h : KeyUnique store)
    (events : List (String × Nat × Reaction)) :
    KeyUnique (events.foldl
      (fun s ev => applyReaction s ev.1 ev.2.1 ev.2.2) store)
    ∧ (∀ e u rc, store.find? (keyMatch e u) = none →
        applyReaction store e u rc = store ++ [⟨e, u, rc⟩])
    ∧ (∀ e u rc ex, store.find? (keyMatch e u) = some ex →
        (applyReaction store e u rc).map keyOf = store.map keyOf
        ∧ (applyReaction store e u rc).length = store.length) := by
  refine ⟨?_, ?_, ?_⟩
  · induction events generalizing store with
    | nil => exact h
    | cons ev rest ih =>
      exact ih _ (applyReaction_keyUnique store ev.1 ev.2.1 ev.2.2 h)
  · intro e u rc hnone
    unfold applyReaction
    rw [hnone]
  · intro e u rc ex hsome
    unfold applyReaction
    rw [hsome]
    by_cases hr : ex.reaction = rc
    · simp [hr]
    · simp only [ne_eq, hr, not_false_eq_true, if_true]
      exact ⟨updateOne_map_keyOf e u rc store, updateOne_length e u rc store⟩

/-- Witness for C3: starting from the empty store, the event sequence
like-then-love by user 7 on episode E1 plus an angry by user 9 leaves
the invariant intact, and the first insertion is an append. -/
theorem C3_reaction_store_key_unique_witness :
    KeyUnique ([("E1", 7, Reaction.like), ("E1", 7, Reaction.love),
        ("E2", 9, Reaction.angry)].foldl
      (fun s ev => applyReaction s ev.1 ev.2.1 ev.2.2) [])
    ∧ applyReaction [] "E1" 7 Reaction.like = [⟨"E1", 7, Reaction.like⟩] := by
  have h := C3_reaction_store_key_unique [] (by simp [KeyUnique])
    [("E1", 7, Reaction.like), ("E1", 7, Reaction.love),
     ("E2", 9, Reaction.angry)]
  exact ⟨h.1, h.2.1 "E1" 7 Reaction.like rfl⟩

/-- Claim C4: the reaction-handler store mutation is idempotent: applying
it twice with the same (episodeId, userId, reaction) triple leaves both
the store and the episode's tally equal to those after one application. -/
theorem C4_applyReaction_idempotent (store : List ReactionRecord)
    (e : String) (u : Nat) (rc : Reaction) :
    applyReaction (applyReaction store e u rc) e u rc
      = applyReaction store e u rc
    ∧ getReactions (applyReaction (applyReaction store e u rc) e u rc) e
      = getReactions (applyReaction store e u rc) e := by
  have hfind := find?_applyReaction store e u rc
  have hv : (match store.find? (keyMatch e u) with
      | some ex => { ex with reaction := rc }
      | none => (⟨e, u, rc⟩ : ReactionRecord)).reaction = rc := by
    cases store.find? (keyMatch e u) <;> rfl
  have hfix := applyReaction_noop hfind hv
  exact ⟨hfix, by rw [hfix]⟩

/-- Claim C5: overwriting an existing like with a love, for a store
satisfying the uniqueness invariant, lowers the episode's like count by
one, raises its love count by one, leaves its angry count, its record
count and the total store size unchanged. -/
theorem C5_like_to_love_overwrite
    (store : List ReactionRecord) (e : String) (u : Nat)
    (ex : ReactionRecord) (hU : KeyUnique store) (hmem : ex ∈ store)
    (he : ex.episodeId = e) (hu : ex.userId = u)
    (hlike : ex.reaction = .like) :
    (getReactions store e).like
      = (getReactions (applyReaction store e u .love) e).like + 1
    ∧ (getReactions (applyReaction store e u .love) e).love
      = (getReactions store e).love + 1
    ∧ (getReactions (applyReaction store e u .love) e).angry
      = (getReactions store e).angry
    ∧ episodeRecordCount (applyReaction store e u .love) e
      = episodeRecordCount store e
    ∧ (applyReaction store e u .love).length = store.length := by
  have hfind : store.find? (keyMatch e u) = some ex :=
    find?_of_mem_keyUnique hU hmem he hu
  have happ : applyReaction store e u .love
      = updateOneReaction e u .love store := by
    unfold applyReaction
    rw [hfind]
    simp [hlike]
  have hlikeC := countP_updateOne .love
    (fun r => r.episodeId == e && r.reaction == Reaction.like) hfind
  have hloveC := countP_updateOne .love
    (fun r => r.episodeId == e && r.reaction == Reaction.love) hfind
  have hangryC := countP_updateOne .love
    (fun r => r.episodeId == e && r.reaction == Reaction.angry) hfind
  have hepC := countP_updateOne .love
    (fun r => r.episodeId == e) hfind
  simp [he, hlike] at hlikeC hloveC hangryC hepC
  rw [happ]
  refine ⟨?_, ?_, ?_, ?_, updateOne_length e u .love store⟩ <;>
    simp only [getReactions, episodeRecordCount] <;> omega

/-- Witness fixture: a store holding user 7's like on E1 and
user 9's love on E2. -/
def rrStore : List ReactionRecord :=
  [⟨"E1", 7, .like⟩, ⟨"E2", 9, .love⟩]

/-- Witness for C5: in `rrStore`, user 7's like on E1 overwritten with a
love raises E1's love count by one and leaves the store size unchanged. -/
theorem C5_like_to_love_overwrite_witness :
    (getReactions (applyReaction rrStore "E1" 7 Reaction.love) "E1").love
      = (getReactions rrStore "E1").love + 1
    ∧ (applyReaction rrStore "E1" 7 Reaction.love).length = rrStore.length := by
  have h := C5_like_to_love_overwrite rrStore "E1" 7 ⟨"E1", 7, .like⟩
    (by unfold KeyUnique; decide) (by decide) rfl rfl rfl
  exact ⟨h.2.1, h.2.2.2.2⟩

/-- Claim C7 counterexample: the reaction handler does not answer every
tap: a resubmission of the user's existing reaction value (user 7 taps
like on E1 again) hits the early `return` before `answerCbQuery`, so the
tap gets no acknowledgement at all. -/
theorem C7_counterexample :
    ¬ ∀ (store : List ReactionRecord) (e : String) (u : Nat) (rc : Reaction),
        ((reactionHandler store e u rc).2).isSome = true := by
  intro hall
  exact absurd (hall [⟨"E1", 7, Reaction.like⟩] "E1" 7 Reaction.like) (by decide)

/-- Claim C7 amended: a reaction tap is answered with the acknowledgement
toast exactly when it creates a new record or overwrites a differing one;
a resubmission of the pair's existing reaction value returns early
without any answer. -/
theorem C7_ack_unless_same_resubmission
    (store : List ReactionRecord) (e : String) (u : Nat) (rc : Reaction) :
    ((reactionHandler store e u rc).2 = none ↔
      ∃ ex, store.find? (keyMatch e u) = some ex ∧ ex.reaction = rc)
    ∧ ((reactionHandler store e u rc).2 ≠ none →
        (reactionHandler store e u rc).2
          = some ("You reacted with " ++ rc.text)) := by
  unfold reactionHandler
  cases hf : store.find? (keyMatch e u) with
  | none => simp
  | some ex =>
    by_cases hr : ex.reaction = rc
    · simp [hr]
    · simp [hr]

/-- Witness for C7 (amended): on `rrStore`, user 7 resubmitting like on
E1 gets no answer, while switching to love gets the toast. -/
theorem C7_ack_witness :
    (reactionHandler rrStore "E1" 7 Reaction.like).2 = none
    ∧ (reactionHandler rrStore "E1" 7 Reaction.love).2
        = some "You reacted with love" := by
  refine ⟨(C7_ack_unless_same_resubmission rrStore "E1" 7 Reaction.like).1.mpr
      ⟨⟨"E1", 7, Reaction.like⟩, by decide, rfl⟩, ?_⟩
  exact ((C7_ack_unless_same_resubmission rrStore "E1" 7
    Reaction.love).2 (by decide)).trans (by rfl)

/-! ## Claim theorems: the per-tick check -/

/-- Claim C2: the per-tick check dispatches exactly when the resolver
returns an episode whose id differs from the watermark entry (an absent
entry differs); on successful dispatch the watermark entry becomes the
new episode id; on dispatch failure it is unchanged; and when the
resolved id equals the watermark, nothing is dispatched and the entry is
unchanged. -/
theorem C2_watermark_after_dispatch
    (latest : Option Episode) (dispatchOk : Bool) (wm : Option String) :
    ((checkForNewEpisode latest dispatchOk wm).2 = true ↔
      ∃ ep, latest = some ep ∧ some ep.id ≠ wm)
    ∧ (∀ ep, latest = some ep → some ep.id ≠ wm → dispatchOk = true →
        (checkForNewEpisode latest dispatchOk wm).1 = some ep.id)
    ∧ (dispatchOk = false →
        (checkForNewEpisode latest dispatchOk wm).1 = wm)
    ∧ (∀ ep, latest = some ep → some ep.id = wm →
        checkForNewEpisode latest dispatchOk wm = (wm, false)) := by
  cases latest with
  | none => simp [checkForNewEpisode]
  | some ep =>
    by_cases hid : some ep.id = wm
    · by_cases hok : dispatchOk <;> simp [checkForNewEpisode, hid, hok]
    · by_cases hok : dispatchOk <;> simp [checkForNewEpisode, hid, hok]

/-- Witness for C2: with an empty watermark the resolved episode B is
dispatched and the watermark becomes "B"; a failing dispatch leaves the
old entry "A" in place; a watermark already at "B" suppresses dispatch. -/
theorem C2_watermark_witness :
    (checkForNewEpisode (some epB) true none).2 = true
    ∧ (checkForNewEpisode (some epB) false (some "A")).1 = some "A"
    ∧ checkForNewEpisode (some epB) true (some "B") = (some "B", false) :=
  ⟨(C2_watermark_after_dispatch (some epB) true none).1.mpr
      ⟨epB, rfl, by simp⟩,
   (C2_watermark_after_dispatch (some epB) false (some "A")).2.2.1 rfl,
   (C2_watermark_after_dispatch (some epB) true (some "B")).2.2.2 epB rfl rfl⟩

/-! ## Claim theorems: tracked-series commands -/

/-- Claim C8 counterexample: with "42" already tracked, the duplicate add
produces exactly the same outcome (store and reply) as an add with a
missing id: the rejection is the one shared reply, not a distinct
AlreadyTracked outcome distinguished from InvalidId. -/
theorem C8_counterexample :
    addSeries ["42"] (some "42") = addSeries ["42"] none := by decide

/-- Claim C8 amended: a subsequent add of an already-tracked id is
rejected — the store gains no second record — with the single shared
rejection reply that is also used for an invalid id, not a distinct
AlreadyTracked outcome; the duplicate is detected by the membership
check performed before insertion. -/
theorem C8_duplicate_add_rejected
    (store : List String) (sid : String) (h : sid ∈ store) :
    addSeries store (some sid)
      = (store,
         "Please provide a valid series ID or the series is already added.") := by
  simp [addSeries, h]

/-- Witness for C8 (amended): adding "42" when it is already tracked
leaves the store as it was and yields the shared rejection reply. -/
theorem C8_duplicate_add_witness :
    addSeries ["42"] (some "42")
      = (["42"],
         "Please provide a valid series ID or the series is already added.") :=
  C8_duplicate_add_rejected ["42"] "42" (by simp)

lemma deleteOne_no_match {store : List String} {sid : String}
    (h : sid ∉ store) : deleteOneSeries sid store = store := by
  induction store with
  | nil => rfl
  | cons s rest ih =>
    have hs : (s == sid) = false := by
      simp only [List.mem_cons] at h
      simp [beq_eq_false_iff_ne]
      exact fun hesq => h (Or.inl hesq.symm)
    have hrest : sid ∉ rest := fun hr => h (List.mem_cons_of_mem _ hr)
    simp [deleteOneSeries, hs, ih hrest]

/-- Claim C9 counterexample: removing the untracked id "B" from the store
["A"] leaves the store unmutated but replies with the very success
confirmation a tracked removal produces — not a NotTracked outcome. -/
theorem C9_counterexample :
    removeSeries ["A"] "B" = (["A"], "Series with ID B removed.")
    ∧ (removeSeries ["B"] "B").2 = "Series with ID B removed." := by
  constructor <;> decide

/-- Claim C9 amended: removeSeries on an untracked id leaves the store
unmutated, but it replies with the same unconditional success
confirmation used for a tracked id; no NotTracked outcome exists. -/
theorem C9_untracked_remove_unmutated
    (store : List String) (sid : String) (h : sid ∉ store) :
    removeSeries store sid
      = (store, "Series with ID " ++ sid ++ " removed.") := by
  unfold removeSeries
  rw [deleteOne_no_match h]

/-- Witness for C9 (amended): removing untracked "B" from ["A"] leaves
the store as it was and replies with the removal confirmation. -/
theorem C9_untracked_remove_witness :
    removeSeries ["A"] "B" = (["A"], "Series with ID " ++ "B" ++ " removed.") :=
  C9_untracked_remove_unmutated ["A"] "B" (by simp)

end TvNotify
